import Mathlib

/-!
Verification of the `ghts` repository against its specification.

The shipped TypeScript code (`src/index.ts`, `src/commands/test.ts`) is a
bare commander-based CLI skeleton with a single `test` subcommand.  The
synchronization / safety-guardrail engine exists only in the accompanying
design document; its components (RepositoryProbe, ChangeSetStager,
SnapshotCommitter, RemotePublisher, SyncOrchestrator, UndoGuard,
InterruptGuard) are modelled here from the specification and the design
document, and the specified properties are proved about that model.
-/

set_option autoImplicit false

namespace Ghts

/-- The repository-level operations that the specification exposes
(`save`, `sync`, `undo`, `history`).  The shipped CLI performs none of
them; the type is used to record which, if any, a command action runs. -/
inductive RepoOp where
  | save
  | sync
  | undo
  | history
deriving DecidableEq, Repr

/-- A registered commander subcommand: its name, help description, the
lines its action writes to the console, and the repository operations its
action performs.  Embeds the shape produced by
`program.command(name).description(d).action(f)` in `commander`. -/
structure Cmd where
  name : String
  description : String
  actionOutput : List String
  actionRepoOps : List RepoOp
deriving DecidableEq, Repr

/-- From `src/commands/test.ts` lines 4-9: the `test` subcommand.  Its
action is `() => { console.log("Running tests..."); }`: one output line,
no repository operation. -/
def testCmd : Cmd :=
  { name := "test"
    description := "Run tests"
    actionOutput := ["Running tests..."]
    actionRepoOps := [] }

/-- From `src/commands/test.ts` lines 3-10: `loadCommands` registers the
single `test` subcommand on the program it is given. -/
def loadCommands (registered : List Cmd) : List Cmd :=
  registered ++ [testCmd]

/-- From `src/index.ts` lines 6-15: the program starts with no
subcommands of its own; `loadCommands(program)` is the only registration
call before `program.parse`. -/
def program : List Cmd :=
  loadCommands []

/-- Dispatch of `program.parse(argv)`: the first user argument selects a
registered subcommand by name; a match runs that action, anything else
produces commander help output and runs no action.  Returns the console
lines written by a matched action together with the repository operations
it performed. -/
def runCli (argv : List String) : List String × List RepoOp :=
  match argv with
  | [] => ([], [])
  | a :: _ =>
      match program.find? (fun c => c.name == a) with
      | some c => (c.actionOutput, c.actionRepoOps)
      | none => ([], [])

/-- The action of the `test` subcommand as a function of the ambient
environment: the closure in `src/commands/test.ts` line 7-9 reads neither
the working directory nor any repository state, writes one line, and
returns the repository state unchanged.  `ρ` stands for any ambient
repository/working-directory state. -/
def testAction {σ : Type} (workingDir : String) (ρ : σ) : List String × σ :=
  let _ := workingDir
  (["Running tests..."], ρ)

end Ghts

namespace Snap

/-- Modelled from the spec: error taxonomy of §7 (the variants the claims
mention) for the engine that the design document specifies but the
repository does not yet implement. -/
inductive SnapError where
  | NotARepository
  | EmptyChangeSet
  | UnsafeUndo
  | LockHeld
deriving DecidableEq, Repr

/-- Modelled from the spec: a commit timestamp, carrying the fields the
design document formats as `YYYY-MM-DD HH:mm` (document.md §1, step 3). -/
structure Timestamp where
  year : Nat
  month : Nat
  day : Nat
  hour : Nat
  minute : Nat
deriving DecidableEq, Repr

/-- Zero-pad a number to two digits, as in `HH:mm` formatting. -/
def pad2 (n : Nat) : String :=
  if n < 10 then "0" ++ toString n else toString n

/-- Modelled from the spec: render a timestamp as `YYYY-MM-DD HH:mm`
(document.md design table: commit step). -/
def formatTimestamp (t : Timestamp) : String :=
  toString t.year ++ "-" ++ pad2 t.month ++ "-" ++ pad2 t.day ++ " "
    ++ pad2 t.hour ++ ":" ++ pad2 t.minute

/-- The recognizable message marker the tool writes and later sniffs for
(`[Snap`, document.md: verify the last commit message before `undo`). -/
def toolMarker : String := "[Snap"

/-- Modelled from the spec: build the final commit message
`[Snap <formatted timestamp>] <message>` (§4.3 SnapshotCommitter). -/
def snapMessage (t : Timestamp) (message : String) : String :=
  "[Snap " ++ formatTimestamp t ++ "] " ++ message

/-- Modelled from the spec: `createdByTool` is inferred from the
recognizable message marker (§3 SnapshotRecord, a heuristic). -/
def isToolMessage (m : String) : Bool :=
  toolMarker.data.isPrefixOf m.data

/-- A commit in the backing version-control history: identifier, message,
timestamp, and the set of paths whose changes it recorded. -/
structure Commit where
  id : Nat
  message : String
  timestamp : Timestamp
  touchedPaths : List String
deriving DecidableEq, Repr

/-- One ancestor directory of the current working directory, with the
backend's answer to whether it holds a repository root. -/
structure Dir where
  path : String
  hasGitDir : Bool
deriving DecidableEq, Repr

/-- Search upward from the current directory for a tracked repository
root (the backend's repository-root detection, §6). -/
def findRootUpward : List Dir → Option Dir
  | [] => none
  | d :: up => if d.hasGitDir then some d else findRootUpward up

/-- Modelled from the spec: the state of the working copy that the
backend subprocesses read and mutate.  `ancestors` is the directory chain
upward from the current directory; `files` maps each path to its working
tree byte contents; `modified` and `staged` are the paths with unstaged
and staged pending changes; `history` lists commits newest first;
`ahead`/`behind` count commits relative to the remote. -/
structure Repo where
  ancestors : List Dir
  branch : String
  files : List (String × String)
  modified : List String
  staged : List String
  history : List Commit
  ahead : Nat
  behind : Nat
deriving DecidableEq, Repr

/-- A working tree is clean when no pending changes exist, staged or not
(`git status --porcelain` output empty, document.md guardrail table). -/
def Repo.isCleanTree (r : Repo) : Bool :=
  r.modified.isEmpty && r.staged.isEmpty

/-- Modelled from the spec: `RepositoryState` of §3, derived fresh on
every invocation. -/
structure RepositoryState where
  isTracked : Bool
  currentBranch : String
  isClean : Bool
  aheadCount : Nat
  behindCount : Nat
deriving DecidableEq, Repr

/-- Modelled from the spec: `SnapshotRecord` of §3. -/
structure SnapshotRecord where
  id : Nat
  message : String
  createdByTool : Bool
  timestamp : Timestamp
deriving DecidableEq, Repr

/-- Modelled from the spec: `probe() -> RepositoryState` (§4.1), failing
with `NotARepository` when no tracked root is found upward from the
current directory.  Read-only: the repo component of the result is the
input repo. -/
def probe (r : Repo) : Except SnapError RepositoryState × Repo :=
  match findRootUpward r.ancestors with
  | none => (.error .NotARepository, r)
  | some _ =>
      (.ok { isTracked := true
             currentBranch := r.branch
             isClean := r.isCleanTree
             aheadCount := r.ahead
             behindCount := r.behind }, r)

/-- Modelled from the spec: `stageAll() -> StagedCount` (§4.2), staging
all pending modifications as a single unit (`git add .`). -/
def stageAll (r : Repo) : Nat × Repo :=
  (r.modified.length,
   { r with staged := r.staged ++ r.modified, modified := [] })

/-- Modelled from the spec: `commit(message, timestamp) -> SnapshotRecord`
(§4.3).  Fails with `EmptyChangeSet` when nothing is staged; otherwise
prepends exactly one commit whose message is
`[Snap <formatted timestamp>] <message>`. -/
def commitSnapshot (message : String) (t : Timestamp) (r : Repo) :
    Except SnapError SnapshotRecord × Repo :=
  if r.staged.isEmpty then (.error .EmptyChangeSet, r)
  else
    let full := snapMessage t message
    let c : Commit :=
      { id := r.history.length
        message := full
        timestamp := t
        touchedPaths := r.staged }
    (.ok { id := c.id
           message := full
           createdByTool := isToolMessage full
           timestamp := t },
     { r with history := c :: r.history, staged := [], ahead := r.ahead + 1 })

/-- Modelled from the spec: the most recent commit, parsed for the tool
marker (§4.1 `lastSnapshot()`). -/
def lastSnapshot (r : Repo) : Option SnapshotRecord :=
  match r.history with
  | [] => none
  | c :: _ =>
      some { id := c.id
             message := c.message
             createdByTool := isToolMessage c.message
             timestamp := c.timestamp }

/-- Modelled from the spec: `PushOutcome` of §4.4. -/
inductive PushOutcome where
  | Published
  | Rejected (reason : String)
  | NetworkFailure
deriving DecidableEq, Repr

/-- The one observable condition of the remote during a single push
subprocess call: unreachable (network/auth failure), reachable but
diverged (non-fast-forward), or reachable and accepting the push. -/
inductive RemoteCondition where
  | unreachable
  | diverged
  | accepting
deriving DecidableEq, Repr

/-- Modelled from the spec: `push(branch) -> PushOutcome` (§4.4).  An
unreachable remote yields `NetworkFailure` and leaves the local history
untouched; a diverged remote yields `Rejected`; otherwise the branch is
published and the ahead count drops to zero. -/
def push (remote : RemoteCondition) (branch : String) (r : Repo) :
    PushOutcome × Repo :=
  let _ := branch
  match remote with
  | .unreachable => (.NetworkFailure, r)
  | .diverged => (.Rejected "non-fast-forward", r)
  | .accepting => (.Published, { r with ahead := 0 })

/-- Modelled from the spec: the result of the exposed `save` operation
(§6: `save(message) -> SnapshotRecord | NothingToSave`), with the fatal
and defense-in-depth outcomes of §7. -/
inductive SaveResult where
  | NotRepo
  | NothingToSave
  | Saved (record : SnapshotRecord) (pushResult : Option PushOutcome)
  | Failed (e : SnapError)
deriving DecidableEq, Repr

/-- Modelled from the spec: the exposed `save` operation composing
probe → clean check → stageAll → commitSnapshot → push (§2 control flow,
document.md data flow).  Returns the result, the user-facing report
lines, and the final repo state.  A clean tree skips staging and reports
"nothing to save" (§4.2); `noPush` is the `--no-push` toggle (§6). -/
def save (message : String) (t : Timestamp) (noPush : Bool)
    (remote : RemoteCondition) (r : Repo) :
    SaveResult × List String × Repo :=
  match probe r with
  | (.error _, r0) => (.NotRepo, ["Not a git repository."], r0)
  | (.ok st, r0) =>
      if st.isClean then (.NothingToSave, ["nothing to save"], r0)
      else
        let (_, r1) := stageAll r0
        match commitSnapshot message t r1 with
        | (.error e, r2) => (.Failed e, ["Failed to save snapshot."], r2)
        | (.ok record, r2) =>
            if noPush then
              (.Saved record none, ["Snapshot saved locally."], r2)
            else
              let (po, r3) := push remote r2.branch r2
              (.Saved record (some po), ["Snapshot saved locally."], r3)

/-- Modelled from the spec: `SyncOutcome` of §3, the sole channel through
which the orchestrator reports status. -/
inductive SyncOutcome where
  | UpToDate
  | FastForwarded
  | RebasedAndPushed
  | ConflictDetected (conflictingPaths : List String)
  | PushRejected (reason : String)
deriving DecidableEq, Repr

/-- The observable result of one rebase-based pull subprocess call
(§4.5 transitions 2 and 3). -/
inductive PullResult where
  | nothingToPull
  | fastForwarded
  | rebasedLocal
  | conflicts (paths : List String)
deriving DecidableEq, Repr

/-- Backend subprocess calls the orchestrator makes during one sync
invocation, recorded as an event trace. -/
inductive SyncEvent where
  | pulled
  | abortedRebase
  | pushed
deriving DecidableEq, Repr

/-- The environment of one sync invocation: what the pull subprocess
reports, and the remote condition the subsequent push would see. -/
structure SyncEnv where
  pull : PullResult
  remote : RemoteCondition
deriving DecidableEq, Repr

/-- Modelled from the spec: the SyncOrchestrator protocol (§4.5).  A pull
reporting conflicts halts immediately: the half-applied rebase is
aborted (restoring the pre-sync working tree), the conflicting paths are
surfaced, and no push happens.  A clean pull zeroes the behind count and
is followed by exactly one push, whose failure is reported as
`PushRejected`, distinct from `ConflictDetected`. -/
def sync (env : SyncEnv) (r : Repo) :
    SyncOutcome × Repo × List SyncEvent :=
  match env.pull with
  | .conflicts paths =>
      (.ConflictDetected paths, r, [.pulled, .abortedRebase])
  | .nothingToPull =>
      let r1 := { r with behind := 0 }
      match push env.remote r1.branch r1 with
      | (.Published, r2) => (.UpToDate, r2, [.pulled, .pushed])
      | (.Rejected reason, r2) => (.PushRejected reason, r2, [.pulled, .pushed])
      | (.NetworkFailure, r2) => (.PushRejected "network failure", r2, [.pulled, .pushed])
  | .fastForwarded =>
      let r1 := { r with behind := 0 }
      match push env.remote r1.branch r1 with
      | (.Published, r2) => (.FastForwarded, r2, [.pulled, .pushed])
      | (.Rejected reason, r2) => (.PushRejected reason, r2, [.pulled, .pushed])
      | (.NetworkFailure, r2) => (.PushRejected "network failure", r2, [.pulled, .pushed])
  | .rebasedLocal =>
      let r1 := { r with behind := 0 }
      match push env.remote r1.branch r1 with
      | (.Published, r2) => (.RebasedAndPushed, r2, [.pulled, .pushed])
      | (.Rejected reason, r2) => (.PushRejected reason, r2, [.pulled, .pushed])
      | (.NetworkFailure, r2) => (.PushRejected "network failure", r2, [.pulled, .pushed])

/-- Modelled from the spec: `UndoOutcome` for `undoLast(force)` (§4.6). -/
inductive UndoOutcome where
  | Undone (record : SnapshotRecord)
  | UnsafeUndo
  | NothingToUndo
deriving DecidableEq, Repr

/-- Modelled from the spec: `undoLast(force)` (§4.6, document.md §2).
Reads the last snapshot; refuses with `UnsafeUndo` when it was not
tool-created and `force` is false.  Otherwise performs the soft rewind
(`git reset --soft HEAD~1` then `git reset HEAD`): the commit leaves
history, the working tree files are untouched, and the commit's changes
reappear as unstaged modifications. -/
def undoLast (force : Bool) (r : Repo) : UndoOutcome × Repo :=
  match r.history with
  | [] => (.NothingToUndo, r)
  | c :: rest =>
      if !isToolMessage c.message && !force then
        (.UnsafeUndo, r)
      else
        (.Undone { id := c.id
                   message := c.message
                   createdByTool := isToolMessage c.message
                   timestamp := c.timestamp },
         { r with history := rest
                  modified := c.touchedPaths ++ r.staged ++ r.modified
                  staged := []
                  ahead := r.ahead - 1 })

/-- Which exit path one wrapped invocation takes (§4.7): normal return,
raised failure, or external interruption signal. -/
inductive ExitPath where
  | normalReturn
  | raisedFailure
  | interruptSignal
deriving DecidableEq, Repr

/-- Lock-token lifecycle events of one invocation, tagged with the
invocation that acquired or released. -/
inductive LockEvent where
  | acquired (owner : Nat)
  | released (owner : Nat)
deriving DecidableEq, Repr

/-- The world seen by InterruptGuard: the backend's on-disk lock artifact
(`.git/index.lock`), tagged with the invocation that created it when
present, and the repo it serializes access to. -/
structure World where
  lockArtifact : Option Nat
  repo : Repo

/-- Modelled from the spec: `withLock(op)` (§4.7, §5).  An existing lock
artifact makes the invocation fail fast with `LockHeld`, leaving the
foreign lock untouched.  Otherwise the token is acquired, and on every
exit path — normal return, raised failure, or interruption — the release
step runs afterward, removing exactly the artifact this invocation
created.  On the two abnormal paths the operation's own effect is not
modelled; only the lock lifecycle is. -/
def withLock {α : Type} (invId : Nat) (exitPath : ExitPath)
    (op : Repo → α × Repo) (w : World) :
    Except SnapError (Option α) × World × List LockEvent :=
  match w.lockArtifact with
  | some _ => (.error .LockHeld, w, [])
  | none =>
      let locked : World := { w with lockArtifact := some invId }
      match exitPath with
      | .normalReturn =>
          let (a, r2) := op locked.repo
          (.ok (some a), { lockArtifact := none, repo := r2 },
           [.acquired invId, .released invId])
      | .raisedFailure =>
          (.ok none, { locked with lockArtifact := none },
           [.acquired invId, .released invId])
      | .interruptSignal =>
          (.ok none, { locked with lockArtifact := none },
           [.acquired invId, .released invId])

/-! Concrete instances used to witness the theorems below on executable
inputs. -/

/-- An ancestor directory that holds a repository root. -/
def demoDir : Dir := { path := "/home/user/project", hasGitDir := true }

/-- A fixed timestamp for concrete runs. -/
def demoTs : Timestamp := ⟨2026, 10, 11, 14, 20⟩

/-- A tracked repository with a clean working tree. -/
def cleanRepo : Repo :=
  { ancestors := [demoDir]
    branch := "main"
    files := [("a.txt", "hello")]
    modified := []
    staged := []
    history := []
    ahead := 0
    behind := 0 }

/-- A tracked repository with one unstaged modified file. -/
def dirtyRepo : Repo :=
  { ancestors := [demoDir]
    branch := "main"
    files := [("a.txt", "hello")]
    modified := ["a.txt"]
    staged := []
    history := []
    ahead := 0
    behind := 0 }

/-- The snapshot record `save "fix"` produces on `dirtyRepo` at `demoTs`. -/
def demoRecord : SnapshotRecord :=
  { id := 0, message := snapMessage demoTs "fix", createdByTool := true, timestamp := demoTs }

/-- A sync environment whose pull reports one conflicting path. -/
def conflictEnv : SyncEnv := { pull := .conflicts ["path/to/file"], remote := .accepting }

/-- A commit authored manually, without the tool marker. -/
def manualCommit : Commit :=
  { id := 0, message := "wip manual edit", timestamp := demoTs, touchedPaths := ["b.txt"] }

/-- A tracked repository whose last commit is the manual one. -/
def manualRepo : Repo :=
  { ancestors := [demoDir]
    branch := "main"
    files := [("b.txt", "world")]
    modified := []
    staged := []
    history := [manualCommit]
    ahead := 1
    behind := 0 }

/-- A commit created by the tool (message built by `snapMessage`). -/
def toolCommit : Commit :=
  { id := 0, message := snapMessage demoTs "fix", timestamp := demoTs, touchedPaths := ["a.txt"] }

/-- A tracked repository whose last commit is tool-created. -/
def toolRepo : Repo :=
  { ancestors := [demoDir]
    branch := "main"
    files := [("a.txt", "hello")]
    modified := []
    staged := []
    history := [toolCommit]
    ahead := 1
    behind := 0 }

/-- A world with no lock artifact on disk. -/
def demoWorld : World := { lockArtifact := none, repo := cleanRepo }

end Snap

open Snap

/-- C1: the shipped program is a bare command-line skeleton: for every
argument vector the only registered subcommand is `test`, whose action
prints `Running tests...` and performs no repository operation; none of
the exposed operations save, sync, undo, or history is implemented or
reachable through any invocation. -/
theorem cli_is_bare_skeleton :
    Ghts.program.map Ghts.Cmd.name = ["test"] ∧
    Ghts.testCmd.actionOutput = ["Running tests..."] ∧
    Ghts.testCmd.actionRepoOps = [] ∧
    ∀ argv : List String, (Ghts.runCli argv).2 = [] := by
  refine ⟨rfl, rfl, rfl, ?_⟩
  intro argv
  match argv with
  | [] => rfl
  | a :: rest =>
      cases h : ("test" == a) <;>
        simp [Ghts.runCli, Ghts.program, Ghts.loadCommands, List.find?, Ghts.testCmd, h]

/-- C10: the `test` action is deterministic and independent of the
working directory and of any ambient repository state: every invocation
produces the single output line `Running tests...` and mutates no
external state, and dispatching `test` through the CLI always yields
that same output with no repository operation. -/
theorem test_command_action_pure :
    (∀ (σ : Type) (wd1 wd2 : String) (ρ1 ρ2 : σ),
        (Ghts.testAction wd1 ρ1).1 = ["Running tests..."] ∧
        (Ghts.testAction wd1 ρ1).2 = ρ1 ∧
        (Ghts.testAction wd1 ρ1).1 = (Ghts.testAction wd2 ρ2).1) ∧
    ∀ rest : List String, Ghts.runCli ("test" :: rest) = (["Running tests..."], []) := by
  constructor
  · intro σ wd1 wd2 ρ1 ρ2
    exact ⟨rfl, rfl, rfl⟩
  · intro rest
    rfl

/-- C8: `probe` fails with `NotARepository` exactly when no tracked
repository root is found upward from the current directory; no
`RepositoryState` is produced in that case, `NotARepository` is the only
error it reports, and it has no side effect on the repository. -/
theorem probe_not_a_repository (r : Repo) :
    ((probe r).1 = .error .NotARepository ↔ findRootUpward r.ancestors = none) ∧
    (∀ st : RepositoryState, (probe r).1 = .ok st → ∃ d, findRootUpward r.ancestors = some d) ∧
    (∀ e : SnapError, (probe r).1 = .error e → e = .NotARepository) ∧
    (probe r).2 = r := by
  cases hfr : findRootUpward r.ancestors <;> simp [probe, hfr]

/-- C7: `push` returns exactly one of `Published`, `Rejected`, or
`NetworkFailure`; `NetworkFailure` leaves the local repository — in
particular its commit history — untouched and arises exactly when the
remote is unreachable, while `Rejected` arises exactly when the remote
has diverged (non-fast-forward), so the two failure variants are never
conflated. -/
theorem push_distinguishes_failures (remote : RemoteCondition) (branch : String) (r : Repo) :
    ((push remote branch r).1 = .Published ∨
      (∃ reason, (push remote branch r).1 = .Rejected reason) ∨
      (push remote branch r).1 = .NetworkFailure) ∧
    ((push remote branch r).1 = .NetworkFailure → (push remote branch r).2 = r) ∧
    ((push remote branch r).1 = .NetworkFailure ↔ remote = .unreachable) ∧
    ((∃ reason, (push remote branch r).1 = .Rejected reason) ↔ remote = .diverged) := by
  cases remote <;> simp [push]

/-- C4: in every sync invocation whose pull step reports conflicts, the
push operation is never invoked, the invocation returns
`ConflictDetected` with exactly the conflicting paths as its sole
outcome, and the repository is left in its pre-sync state. -/
theorem sync_conflicts_never_push (env : SyncEnv) (r : Repo) (paths : List String)
    (h : env.pull = .conflicts paths) :
    (sync env r).1 = .ConflictDetected paths ∧
    SyncEvent.pushed ∉ (sync env r).2.2 ∧
    (sync env r).2.1 = r := by
  simp [sync, h]

/-- C4 witness: a conflicting pull on a concrete repository yields
`ConflictDetected` with the conflicting path, no push event, and an
unchanged repository. -/
theorem sync_conflicts_never_push_witness :
    (sync conflictEnv dirtyRepo).1 = .ConflictDetected ["path/to/file"] ∧
    SyncEvent.pushed ∉ (sync conflictEnv dirtyRepo).2.2 ∧
    (sync conflictEnv dirtyRepo).2.1 = dirtyRepo :=
  sync_conflicts_never_push conflictEnv dirtyRepo ["path/to/file"] rfl

/-- C2: on a tracked repository whose working tree has zero pending
changes, `save` creates no commit, reports `nothing to save`, and leaves
the repository state completely unchanged. -/
theorem save_clean_tree_noop (message : String) (t : Timestamp) (noPush : Bool)
    (remote : RemoteCondition) (r : Repo) (d : Dir)
    (hroot : findRootUpward r.ancestors = some d)
    (hclean : r.isCleanTree = true) :
    save message t noPush remote r = (.NothingToSave, ["nothing to save"], r) := by
  simp [save, probe, hroot, hclean]

/-- C2 witness: `save` on a concrete clean repository is a no-op that
reports `nothing to save`. -/
theorem save_clean_tree_noop_witness :
    save "x" demoTs false .accepting cleanRepo
      = (.NothingToSave, ["nothing to save"], cleanRepo) :=
  save_clean_tree_noop "x" demoTs false .accepting cleanRepo demoDir rfl rfl

/-- C3: every successful `save` prepends exactly one commit to the
history (the rest of the history is untouched), and that commit's
message is `[Snap <formatted timestamp>] <message>` for the
user-supplied message — in particular it begins with the `[Snap ...]`
marker containing the formatted timestamp. -/
theorem save_success_exactly_one_commit (message : String) (t : Timestamp) (noPush : Bool)
    (remote : RemoteCondition) (r : Repo) (record : SnapshotRecord) (po : Option PushOutcome)
    (h : (save message t noPush remote r).1 = .Saved record po) :
    ∃ c : Commit,
      (save message t noPush remote r).2.2.history = c :: r.history ∧
      (save message t noPush remote r).2.2.history.length = r.history.length + 1 ∧
      c.message = snapMessage t message ∧
      record.message = c.message ∧
      ∃ rest, c.message = "[Snap " ++ (formatTimestamp t ++ rest) := by
  cases hfr : findRootUpward r.ancestors with
  | none => simp [save, probe, hfr] at h
  | some d =>
      cases hclean : r.isCleanTree with
      | true => simp [save, probe, hfr, hclean] at h
      | false =>
          have hne : (r.staged ++ r.modified).isEmpty = false := by
            cases hs : r.staged with
            | cons x xs => rfl
            | nil =>
                cases hm : r.modified with
                | nil =>
                    rw [Repo.isCleanTree, hs, hm] at hclean
                    simp at hclean
                | cons x xs => simp [hs]
          cases noPush with
          | true =>
              simp [save, probe, hfr, hclean, stageAll, commitSnapshot, hne] at h ⊢
              obtain ⟨hrec, hpo⟩ := h
              exact ⟨by rw [← hrec], ⟨"] " ++ message,
                by simp [snapMessage, String.append_assoc]⟩⟩
          | false =>
              cases remote <;>
                simp [save, probe, hfr, hclean, stageAll, commitSnapshot, hne, push] at h ⊢ <;>
                obtain ⟨hrec, hpo⟩ := h <;>
                exact ⟨by rw [← hrec], ⟨"] " ++ message,
                  by simp [snapMessage, String.append_assoc]⟩⟩

/-- C3 witness: a concrete successful `save` on a dirty repository with
an unreachable remote creates exactly one commit with the
timestamp-marked message. -/
theorem save_success_exactly_one_commit_witness :
    ∃ c : Commit,
      (save "fix" demoTs false .unreachable dirtyRepo).2.2.history = c :: dirtyRepo.history ∧
      (save "fix" demoTs false .unreachable dirtyRepo).2.2.history.length
        = dirtyRepo.history.length + 1 ∧
      c.message = snapMessage demoTs "fix" ∧
      demoRecord.message = c.message ∧
      ∃ rest, c.message = "[Snap " ++ (formatTimestamp demoTs ++ rest) :=
  save_success_exactly_one_commit "fix" demoTs false .unreachable dirtyRepo demoRecord
    (some .NetworkFailure) rfl

/-- C5: `undoLast` without force on a repository whose last commit is
not tool-created fails with `UnsafeUndo` and leaves the whole repository
— in particular its history — unchanged; and without force it succeeds
only when the last commit was created by the tool. -/
theorem undo_refuses_non_tool_commit (r : Repo) (c : Commit) (rest : List Commit)
    (hist : r.history = c :: rest) (hc : isToolMessage c.message = false) :
    undoLast false r = (.UnsafeUndo, r) ∧
    ∀ (r2 : Repo) (record : SnapshotRecord),
      (undoLast false r2).1 = .Undone record →
      ∃ c2 rest2, r2.history = c2 :: rest2 ∧ isToolMessage c2.message = true := by
  constructor
  · simp [undoLast, hist, hc]
  · intro r2 record h
    match h2 : r2.history with
    | [] => simp [undoLast, h2] at h
    | c2 :: rest2 =>
        cases htool : isToolMessage c2.message with
        | false => simp [undoLast, h2, htool] at h
        | true => exact ⟨c2, rest2, rfl, htool⟩

/-- C5 witness: `undoLast false` on a concrete repository whose last
commit is manual fails with `UnsafeUndo` and changes nothing. -/
theorem undo_refuses_non_tool_commit_witness :
    undoLast false manualRepo = (.UnsafeUndo, manualRepo) ∧
    ∀ (r2 : Repo) (record : SnapshotRecord),
      (undoLast false r2).1 = .Undone record →
      ∃ c2 rest2, r2.history = c2 :: rest2 ∧ isToolMessage c2.message = true :=
  undo_refuses_non_tool_commit manualRepo manualCommit [] rfl rfl

/-- C6: `undoLast` on a repository whose last commit is tool-created
removes exactly that one commit from history, leaves every working tree
file's contents byte-identical, and re-exposes the commit's changes as
uncommitted, unstaged modifications. -/
theorem undo_tool_commit_soft (force : Bool) (r : Repo) (c : Commit) (rest : List Commit)
    (hist : r.history = c :: rest) (hc : isToolMessage c.message = true) :
    (undoLast force r).1
      = .Undone { id := c.id, message := c.message,
                  createdByTool := true, timestamp := c.timestamp } ∧
    (undoLast force r).2.history = rest ∧
    (undoLast force r).2.history.length + 1 = r.history.length ∧
    (undoLast force r).2.files = r.files ∧
    (∀ p ∈ c.touchedPaths, p ∈ (undoLast force r).2.modified) ∧
    (undoLast force r).2.staged = [] := by
  simp [undoLast, hist, hc]
  intro p hp
  simp [List.mem_append, hp]

/-- C6 witness: undoing a concrete tool-created commit removes it from
history, keeps the working tree files identical, and leaves its touched
paths as unstaged modifications. -/
theorem undo_tool_commit_soft_witness :
    (undoLast false toolRepo).1
      = .Undone { id := toolCommit.id, message := toolCommit.message,
                  createdByTool := true, timestamp := toolCommit.timestamp } ∧
    (undoLast false toolRepo).2.history = [] ∧
    (undoLast false toolRepo).2.history.length + 1 = toolRepo.history.length ∧
    (undoLast false toolRepo).2.files = toolRepo.files ∧
    (∀ p ∈ toolCommit.touchedPaths, p ∈ (undoLast false toolRepo).2.modified) ∧
    (undoLast false toolRepo).2.staged = [] :=
  undo_tool_commit_soft false toolRepo toolCommit [] rfl rfl

/-- C9: on every exit path of `withLock` — normal return, raised
failure, or external interruption — no lock artifact created by this
invocation remains afterward, at most one lock token is acquired per
invocation, and every acquisition is matched by a release. -/
theorem withLock_releases_on_every_exit {α : Type} (invId : Nat) (exitPath : ExitPath)
    (op : Repo → α × Repo) (w : World) (h : w.lockArtifact ≠ some invId) :
    (withLock invId exitPath op w).2.1.lockArtifact ≠ some invId ∧
    (withLock invId exitPath op w).2.2.count (.acquired invId) ≤ 1 ∧
    (withLock invId exitPath op w).2.2.count (.acquired invId)
      = (withLock invId exitPath op w).2.2.count (.released invId) := by
  cases hw : w.lockArtifact with
  | some j => simpa [withLock, hw] using fun hji => h (hw ▸ congrArg some hji)
  | none => cases exitPath <;> simp [withLock, hw, List.count_cons]

/-- C9 witness: an interrupted concrete invocation acquires the lock
once, releases it, and leaves no lock artifact of its own behind. -/
theorem withLock_releases_on_every_exit_witness :
    (withLock 7 .interruptSignal (fun repo => ((0 : Nat), repo)) demoWorld).2.1.lockArtifact
      ≠ some 7 ∧
    (withLock 7 .interruptSignal (fun repo => ((0 : Nat), repo)) demoWorld).2.2.count
      (.acquired 7) ≤ 1 ∧
    (withLock 7 .interruptSignal (fun repo => ((0 : Nat), repo)) demoWorld).2.2.count
      (.acquired 7)
      = (withLock 7 .interruptSignal (fun repo => ((0 : Nat), repo)) demoWorld).2.2.count
          (.released 7) :=
  withLock_releases_on_every_exit 7 .interruptSignal (fun repo => ((0 : Nat), repo)) demoWorld
    (by decide)
